import Mathlib

/-!
# Verification of the `stained` dice-game engine

A shallow embedding, in Lean 4, of the rules engine of the `stained`
repository (a Sagrada-style dice-drafting board game written in Rust),
together with theorems settling a list of claims about its behaviour.

The embedding follows the source files:
* `src/game.rs`     — `GameState`, `TurnPhase`, `TurnAction`, `Player`,
                      `take_turn`, `start_round`, `finish_round`,
                      `select_template`, `place_die`, `calculate_score`,
                      the board-template catalog;
* `src/objective.rs`— `Objective::score`, `distinct_numbers`,
                      `distinct_colors`, `count_number`, `count_color`,
                      `color_diagonals`, `has_diag`;
* `src/color.rs`    — `Dice` and its `increment` / `decrement` operations;
* `src/constants.rs`— the numeric constants.

Randomness (bag shuffling in `init`, die faces in `roll_die`) is made
explicit: `init`-produced states are characterised by the predicate
`InitLike`, and `take_turn` receives the list of face rolls it may consume
when a new draft pool is drawn.  Rust `panic!`/`assert!`/out-of-bounds
aborts are modelled by a dedicated `TurnResult.panicked` outcome.

Machine integers: all the `usize`/`u8`/`i32` quantities involved stay far
from their wrap-around points except where noted; `u8` saturating
arithmetic in `Dice.increment`/`Dice.decrement` is modelled explicitly
(`min (face + 1) 255`, truncated subtraction).
-/

namespace Stained

/-! ## Constants (src/constants.rs, duplicated at the top of src/game.rs) -/

def NUM_ROUNDS : Nat := 10
def NUM_OBJECTIVES : Nat := 3
def NUM_TOOLS : Nat := 3
def MAX_PLAYERS : Nat := 4
def NUM_COLORS : Nat := 5
def DICE_PER_COLOR : Nat := (2 * MAX_PLAYERS + 1) * NUM_ROUNDS / NUM_COLORS
def BOARD_ROWS : Nat := 4
def BOARD_COLS : Nat := 5

/-! ## Colors and dice (src/color.rs / src/game.rs) -/

inductive Color where
  | Red
  | Yellow
  | Green
  | Blue
  | Purple
deriving DecidableEq

/-- The `ALL_COLORS` from the source. -/
def ALL_COLORS : List Color :=
  [Color.Red, Color.Yellow, Color.Green, Color.Blue, Color.Purple]

/-- A die: `struct Dice { color: Color, face: u8 }`. -/
structure Dice where
  color : Color
  face : Nat
deriving DecidableEq

/-- Source `Dice::increment`: `self.face = self.face.saturating_add(1)` —
`u8` saturating addition, i.e. capped at 255 (not at 6). -/
def Dice.increment (d : Dice) : Dice :=
  { d with face := min (d.face + 1) 255 }

/-- Source `Dice::decrement`: `self.face = self.face.saturating_sub(1)` —
`u8` saturating subtraction, i.e. truncated at 0 (not at 1). -/
def Dice.decrement (d : Dice) : Dice :=
  { d with face := d.face - 1 }

/-- The face produced by `roll_die` / `Dice::roll`:
`(1..=6).choose(&mut rng).unwrap_or(1)`.  The parameter `r` stands for the
random choice; any value outside the die range collapses to 1, so the
results of this function are exactly the possible rolled faces. -/
def roll_face (r : Nat) : Nat :=
  if 1 ≤ r ∧ r ≤ 6 then r else 1

/-- Source `roll_die` (src/game.rs): a die of the given color with a rolled face. -/
def roll_die (r : Nat) (c : Color) : Dice :=
  { color := c, face := roll_face r }

/-! ## Slots, cells, templates (src/game.rs; identical in src/template.rs
and src/board.rs) -/

inductive Slot where
  | Any
  | Color (c : Color)
  | Face (f : Nat)
deriving DecidableEq

/-- Rust `struct BoardCell { slot: Slot, die: Option<Dice> }`. -/
structure BoardCell where
  slot : Slot
  die : Option Dice
deriving DecidableEq

/-- Rust `impl Default for BoardCell`: slot `Any`, no die. -/
instance : Inhabited BoardCell := ⟨{ slot := Slot.Any, die := none }⟩

/-- Rust `struct BoardTemplate { slots: [[Slot; BOARD_COLS]; BOARD_ROWS], value: u8 }`. -/
structure BoardTemplate where
  slots : List (List Slot)
  value : Nat
deriving DecidableEq

/-- A player's board, `[[BoardCell; BOARD_COLS]; BOARD_ROWS]`, embedded as a
list of rows. -/
abbrev Board := List (List BoardCell)

/-- The all-empty, all-`Any` board every player starts with
(`[[BoardCell::default(); BOARD_COLS]; BOARD_ROWS]`). -/
def emptyBoard : Board :=
  List.replicate BOARD_ROWS (List.replicate BOARD_COLS default)

/-- Write one cell of the board: `self.board[r][c] = cell` (both indices are
bounds-checked by the callers, mirroring Rust's statically sized arrays). -/
def setCell (b : Board) (r c : Nat) (cell : BoardCell) : Board :=
  b.set r ((b.getD r []).set c cell)

/-! ## Player and its operations (src/game.rs) -/

structure Player where
  tokens : Nat
  board : Board
  secret : Color
  templates : List BoardTemplate
deriving DecidableEq

/-- The double loop in `Player::select_template`:
`for i in 0..BOARD_ROWS { for j in 0..BOARD_COLS
   { self.board[i][j].slot = template.slots[i][j]; } }` —
every cell keeps its die and receives the template's slot. -/
def applyTemplate (b : Board) (slots : List (List Slot)) : Board :=
  (List.range BOARD_ROWS).map fun i =>
    (List.range BOARD_COLS).map fun j =>
      { (b.getD i []).getD j default with
        slot := (slots.getD i []).getD j Slot.Any }

/-- Source `Player::select_template` (src/game.rs lines 177-189): bounds-check the
index, then set `tokens` to the template's value and overlay its slots. -/
def Player.select_template (p : Player) (idx : Nat) : Except String Player :=
  match p.templates[idx]? with
  | none => .error "Invalid template index"
  | some template =>
      .ok { p with
            tokens := template.value
            board := applyTemplate p.board template.slots }

/-- Source `Player::place_die` (src/game.rs lines 190-210): bounds check, occupancy
check, slot-constraint check, then write the die.  NOTE: the source carries
`// TODO: check adjacency rules here` — no adjacency rule is enforced. -/
def Player.place_die (p : Player) (coords : Nat × Nat) (die : Dice) :
    Except String Player :=
  if coords.1 < BOARD_ROWS ∧ coords.2 < BOARD_COLS then
    let cell := (p.board.getD coords.1 []).getD coords.2 default
    if cell.die.isSome then .error "Cell is already occupied"
    else
      let slotError : Option String :=
        match cell.slot with
        | Slot.Color c => if c ≠ die.color then some "Die color does not match slot" else none
        | Slot.Face f => if f ≠ die.face then some "Die face does not match slot" else none
        | Slot.Any => none
      match slotError with
      | some e => .error e
      | none =>
          .ok { p with
                board := setCell p.board coords.1 coords.2 { cell with die := some die } }
  else .error "Invalid coordinates"

/-! ## Objectives (src/objective.rs; the `ALL_OBJECTIVES` multipliers also
appear verbatim in src/game.rs) -/

inductive Objective where
  | ColumnNumbers (n : Int)
  | RowNumbers (n : Int)
  | Numbers (n : Int)
  | ColumnColors (n : Int)
  | RowColors (n : Int)
  | Colors (n : Int)
  | Pair12 (n : Int)
  | Pair34 (n : Int)
  | Pair56 (n : Int)
  | ColorDiagonals (n : Int)
deriving DecidableEq

/-- The discriminant used by `distinct_colors` (`color as usize`). -/
def colorIdx : Color → Nat
  | Color.Red => 0
  | Color.Yellow => 1
  | Color.Green => 2
  | Color.Blue => 3
  | Color.Purple => 4

/-- The loop body of `distinct_numbers`: a `seen: [bool; 6]` accumulator,
indexed by `face as usize - 1`; an empty cell or an already-seen face stops
the scan with `false`. -/
def distinctNumbersAux : List Bool → List BoardCell → Bool
  | _, [] => true
  | seen, cell :: rest =>
      match cell.die with
      | some d =>
          let idx := d.face - 1
          if seen.getD idx false then false
          else distinctNumbersAux (seen.set idx true) rest
      | none => false

/-- Source `distinct_numbers` (src/objective.rs lines 86-100). -/
def distinct_numbers (cells : List BoardCell) : Bool :=
  distinctNumbersAux (List.replicate 6 false) cells

/-- The loop body of `distinct_colors`: a `seen: [bool; NUM_COLORS]`
accumulator indexed by the color discriminant. -/
def distinctColorsAux : List Bool → List BoardCell → Bool
  | _, [] => true
  | seen, cell :: rest =>
      match cell.die with
      | some d =>
          let idx := colorIdx d.color
          if seen.getD idx false then false
          else distinctColorsAux (seen.set idx true) rest
      | none => false

/-- Source `distinct_colors` (src/objective.rs lines 101-115). -/
def distinct_colors (cells : List BoardCell) : Bool :=
  distinctColorsAux (List.replicate NUM_COLORS false) cells

/-- Source `count_number`: dice on the board showing face `n`. -/
def count_number (b : Board) (n : Nat) : Int :=
  (b.flatten.countP fun cell =>
    match cell.die with
    | some d => d.face = n
    | none => false : Int)

/-- Source `count_color`: dice on the board of color `c`. -/
def count_color (b : Board) (c : Color) : Int :=
  (b.flatten.countP fun cell =>
    match cell.die with
    | some d => d.color = c
    | none => false : Int)

/-- Source `has_diag` (src/objective.rs lines 153-157): does `row` hold a die of
color `color` at position `j - 1` or `j + 1`? -/
def has_diag (row : List BoardCell) (j : Nat) (color : Color) : Bool :=
  (decide (0 < j) &&
    match (row.getD (j - 1) default).die with
    | some d => d.color = color
    | none => false) ||
  (decide (j < BOARD_COLS - 1) &&
    match (row.getD (j + 1) default).die with
    | some d => d.color = color
    | none => false)

/-- Source `color_diagonals` (src/objective.rs lines 134-151): count the occupied
cells having a same-colored diagonal neighbor (checked via the row above
and the row below). -/
def color_diagonals (b : Board) : Int :=
  (((List.range BOARD_ROWS).map fun i =>
      ((List.range BOARD_COLS).filter fun j =>
        match ((b.getD i []).getD j default).die with
        | some d =>
            (decide (0 < i) && has_diag (b.getD (i - 1) []) j d.color) ||
            (decide (i < BOARD_ROWS - 1) && has_diag (b.getD (i + 1) []) j d.color)
        | none => false).length).sum : Int)

/-- The column of index `c`, as read by `board.iter().map(|row| &row[c])`. -/
def column (b : Board) (c : Nat) : List BoardCell :=
  b.map fun row => row.getD c default

/-- Source `Objective::score` (src/objective.rs lines 34-83). -/
def Objective.score (o : Objective) (b : Board) : Int :=
  match o with
  | .ColumnNumbers n =>
      n * ((List.range BOARD_COLS).filter fun c => distinct_numbers (column b c)).length
  | .RowNumbers n =>
      n * (b.filter fun row => distinct_numbers row).length
  | .Numbers n =>
      n * (((List.range 6).map fun i => count_number b (i + 1)).min?.getD 0)
  | .ColumnColors n =>
      n * ((List.range BOARD_COLS).filter fun c => distinct_colors (column b c)).length
  | .RowColors n =>
      n * (b.filter fun row => distinct_colors row).length
  | .Colors n =>
      n * ((ALL_COLORS.map fun c => count_color b c).min?.getD 0)
  | .Pair12 n => n * min (count_number b 1) (count_number b 2)
  | .Pair34 n => n * min (count_number b 3) (count_number b 4)
  | .Pair56 n => n * min (count_number b 5) (count_number b 6)
  | .ColorDiagonals n => n * color_diagonals b

/-- The `ALL_OBJECTIVES` with its multipliers. -/
def ALL_OBJECTIVES : List Objective :=
  [.ColumnNumbers 4, .RowNumbers 5, .Numbers 5, .ColumnColors 5, .RowColors 6,
   .Colors 4, .Pair12 2, .Pair34 2, .Pair56 2, .ColorDiagonals 1]

/-- The per-cell term of `Player::calculate_score`: +1 for a die of the
player's secret color, −1 for an empty cell, 0 otherwise. -/
def cellScore (secret : Color) (cell : BoardCell) : Int :=
  match cell.die with
  | some die => if die.color = secret then 1 else 0
  | none => -1

/-- Source `Player::calculate_score` (src/game.rs lines 211-229): the cell sum plus
the objective scores.  (No token term appears in the source.) -/
def Player.calculate_score (p : Player) (objectives : List Objective) : Int :=
  (p.board.flatten.map (cellScore p.secret)).sum
    + (objectives.map fun o => o.score p.board).sum

/-! ## Tools (src/game.rs; take_turn never touches them, they are carried
for state fidelity) -/

inductive ToolType where
  | BumpDraftedDie
  | FlipDraftedDie
  | RerollDraftedDie
  | SwapDraftedDieWithRoundTrack
  | SwapDraftedDieWithBag
  | RerollAllDiceInPool
  | MoveDieIgnoringColor
  | MoveDieIgnoringValue
  | MoveExactlyTwoDice
  | MoveUpToTwoDiceMatchingColor
  | DraftTwoDice
  | PlaceIgnoringAdjacency
deriving DecidableEq

structure Tool where
  tool_type : ToolType
  cost : Nat
deriving DecidableEq

/-! ## The game state machine (src/game.rs) -/

inductive TurnPhase where
  | SelectTemplate
  | FirstDraft
  | SecondDraft
  | GameOver
deriving DecidableEq

/-- Rust `struct TurnAction { idx: usize, coords: Option<(usize, usize)> }`. -/
structure TurnAction where
  idx : Nat
  coords : Option (Nat × Nat)
deriving DecidableEq

structure GameState where
  players : List Player
  start_player_idx : Nat
  curr_player_idx : Nat
  phase : TurnPhase
  dice_bag : List Color
  draft_pool : List Dice
  round_track : List Dice
  tools : List Tool
  objectives : List Objective
deriving DecidableEq

/-- Source `fn next_idx`: `(idx + 1) % self.players.len()`. -/
def next_idx (s : GameState) (idx : Nat) : Nat :=
  (idx + 1) % s.players.length

/-- Source `fn prev_idx`: `(idx + self.players.len() - 1) % self.players.len()`. -/
def prev_idx (s : GameState) (idx : Nat) : Nat :=
  (idx + s.players.length - 1) % s.players.length

/-- Source `fn pool_size`: `2 * self.players.len() + 1`. -/
def pool_size (s : GameState) : Nat :=
  2 * s.players.length + 1

/-- Source `fn is_finished`: all rounds played and the draft pool empty. -/
def is_finished (s : GameState) : Bool :=
  decide (NUM_ROUNDS ≤ s.round_track.length) && s.draft_pool.isEmpty

/-- Roll one die per drawn color, consuming the rolls positionally. -/
def rollAll : List Nat → List Color → List Dice
  | _, [] => []
  | rs, c :: cs => roll_die (rs.headD 1) c :: rollAll rs.tail cs

/-- Source `fn start_round` (src/game.rs lines 132-140):
`draft_pool = dice_bag.split_off(dice_bag.len() - pool_size()).map(roll_die)`
and the phase becomes `FirstDraft`.  `split_off` with an out-of-range index
(bag shorter than the pool size) aborts in Rust; that is the `none` case. -/
def start_round (rolls : List Nat) (s : GameState) : Option GameState :=
  if pool_size s ≤ s.dice_bag.length then
    some { s with
           dice_bag := s.dice_bag.take (s.dice_bag.length - pool_size s)
           draft_pool := rollAll rolls (s.dice_bag.drop (s.dice_bag.length - pool_size s))
           phase := TurnPhase.FirstDraft }
  else none

/-- Source `fn finish_round` (src/game.rs lines 141-145):
`assert_eq!(draft_pool.len(), 1)` (the `none` case when it fails), then pop
the single die onto the round track and rotate the start player. -/
def finish_round (s : GameState) : Option GameState :=
  if s.draft_pool.length = 1 then
    some { s with
           draft_pool := []
           round_track := s.round_track ++ s.draft_pool
           start_player_idx := next_idx s s.start_player_idx }
  else none

/-- Outcome of one `take_turn` call.  Rust's `take_turn(&mut self, ..)`
mutates in place even when it returns `Err`, so `ok` and `err` both carry
the state as left after the call; `panicked` marks the aborts
(`Vec::remove` out of range, `split_off` out of range, the
`assert_eq!` in `finish_round`, player indexing out of range). -/
inductive TurnResult where
  | ok (gameOver : Bool) (s : GameState)
  | err (msg : String) (s : GameState)
  | panicked (msg : String) (s : GameState)
deriving DecidableEq

/-- The state as left after the call (for `panicked`, at the abort point). -/
def TurnResult.state : TurnResult → GameState
  | .ok _ s => s
  | .err _ s => s
  | .panicked _ s => s

/-- The `TurnPhase::SelectTemplate` arm of `take_turn` (src/game.rs lines
91-97): the current player selects a template, the pointer advances, and
when it wraps back to the start player a round is started. -/
def selectPhase (rolls : List Nat) (s : GameState) (a : TurnAction) : TurnResult :=
  match s.players[s.curr_player_idx]? with
  | none => .panicked "player index out of bounds" s
  | some pl =>
      match pl.select_template a.idx with
      | .error e => .err e s
      | .ok pl' =>
          let s1 : GameState :=
            { s with players := s.players.set s.curr_player_idx pl'
                     curr_player_idx := next_idx s s.curr_player_idx }
          if s1.curr_player_idx = s1.start_player_idx then
            match start_round rolls s1 with
            | none => .panicked "split_off out of range" s1
            | some s2 => .ok (decide (s2.phase = TurnPhase.GameOver)) s2
          else .ok (decide (s1.phase = TurnPhase.GameOver)) s1

/-- The `TurnPhase::FirstDraft` arm (src/game.rs lines 98-110): require
destination coordinates, remove the die at `action.idx` from the pool
(BEFORE any placement validation — on a placement error the die is gone),
place it, advance the pointer, and on wrap-around reverse into
`SecondDraft` with the pointer on the previous player. -/
def firstDraftPhase (s : GameState) (a : TurnAction) : TurnResult :=
  match a.coords with
  | none => .err "Missing destination coordinates" s
  | some coords =>
      match s.draft_pool[a.idx]? with
      | none => .panicked "removal index out of bounds" s
      | some die =>
          let s1 : GameState := { s with draft_pool := s.draft_pool.eraseIdx a.idx }
          match s1.players[s1.curr_player_idx]? with
          | none => .panicked "player index out of bounds" s1
          | some pl =>
              match pl.place_die coords die with
              | .error e => .err e s1
              | .ok pl' =>
                  let s2 : GameState :=
                    { s1 with players := s1.players.set s1.curr_player_idx pl' }
                  let s3 : GameState :=
                    { s2 with curr_player_idx := next_idx s2 s2.curr_player_idx }
                  if s3.curr_player_idx = s3.start_player_idx then
                    let s4 : GameState :=
                      { s3 with curr_player_idx := prev_idx s3 s3.curr_player_idx
                                phase := TurnPhase.SecondDraft }
                    .ok (decide (s4.phase = TurnPhase.GameOver)) s4
                  else .ok (decide (s3.phase = TurnPhase.GameOver)) s3

/-- The `TurnPhase::SecondDraft` arm (src/game.rs lines 111-127): as in the
first draft but the pointer moves backward; when it reaches the start
player the round is finished and either the game ends or a new round is
drawn. -/
def secondDraftPhase (rolls : List Nat) (s : GameState) (a : TurnAction) : TurnResult :=
  match a.coords with
  | none => .err "Missing destination coordinates" s
  | some coords =>
      match s.draft_pool[a.idx]? with
      | none => .panicked "removal index out of bounds" s
      | some die =>
          let s1 : GameState := { s with draft_pool := s.draft_pool.eraseIdx a.idx }
          match s1.players[s1.curr_player_idx]? with
          | none => .panicked "player index out of bounds" s1
          | some pl =>
              match pl.place_die coords die with
              | .error e => .err e s1
              | .ok pl' =>
                  let s2 : GameState :=
                    { s1 with players := s1.players.set s1.curr_player_idx pl' }
                  let s3 : GameState :=
                    { s2 with curr_player_idx := prev_idx s2 s2.curr_player_idx }
                  if s3.curr_player_idx = s3.start_player_idx then
                    match finish_round s3 with
                    | none => .panicked "assertion failed: draft_pool.len() == 1" s3
                    | some s4 =>
                        if is_finished s4 then
                          let s5 : GameState := { s4 with phase := TurnPhase.GameOver }
                          .ok (decide (s5.phase = TurnPhase.GameOver)) s5
                        else
                          match start_round rolls s4 with
                          | none => .panicked "split_off out of range" s4
                          | some s5 => .ok (decide (s5.phase = TurnPhase.GameOver)) s5
                  else .ok (decide (s3.phase = TurnPhase.GameOver)) s3

/-- Source `GameState::take_turn` (src/game.rs lines 89-131).  The returned flag is
`matches!(self.phase, TurnPhase::GameOver)` on the final state. -/
def take_turn (rolls : List Nat) (s : GameState) (a : TurnAction) : TurnResult :=
  match s.phase with
  | TurnPhase.SelectTemplate => selectPhase rolls s a
  | TurnPhase.FirstDraft => firstDraftPhase s a
  | TurnPhase.SecondDraft => secondDraftPhase rolls s a
  | TurnPhase.GameOver => .err "Game is over" s

/-- Source `GameState::player_scores`. -/
def player_scores (s : GameState) : List Int :=
  s.players.map fun p => p.calculate_score s.objectives

/-! ## The board-template catalog of src/game.rs (`ALL_BOARD_TEMPLATES`,
lines 400-502: four pairs of templates) -/

def RED : Slot := Slot.Color Color.Red
def YEL : Slot := Slot.Color Color.Yellow
def GRN : Slot := Slot.Color Color.Green
def BLU : Slot := Slot.Color Color.Blue
def PPL : Slot := Slot.Color Color.Purple
def DF1 : Slot := Slot.Face 1
def DF2 : Slot := Slot.Face 2
def DF3 : Slot := Slot.Face 3
def DF4 : Slot := Slot.Face 4
def DF5 : Slot := Slot.Face 5
def DF6 : Slot := Slot.Face 6
def ANY : Slot := Slot.Any

def bellesguard : BoardTemplate :=
  { slots := [[BLU, DF6, ANY, ANY, YEL],
              [ANY, DF3, BLU, ANY, ANY],
              [ANY, DF5, DF6, DF2, ANY],
              [ANY, DF4, ANY, DF1, GRN]]
    value := 3 }

def batllo : BoardTemplate :=
  { slots := [[ANY, ANY, DF6, ANY, ANY],
              [ANY, DF5, BLU, DF4, ANY],
              [DF3, GRN, YEL, PPL, DF2],
              [DF1, DF4, RED, DF5, DF3]]
    value := 5 }

def fractalDrops : BoardTemplate :=
  { slots := [[ANY, DF4, ANY, YEL, DF6],
              [RED, ANY, DF2, ANY, ANY],
              [ANY, ANY, RED, PPL, DF1],
              [BLU, YEL, ANY, ANY, ANY]]
    value := 3 }

def ripplesOfLight : BoardTemplate :=
  { slots := [[ANY, ANY, ANY, RED, DF5],
              [ANY, ANY, PPL, DF4, BLU],
              [ANY, BLU, DF3, YEL, DF6],
              [YEL, DF2, GRN, DF1, RED]]
    value := 5 }

def luzCelestial : BoardTemplate :=
  { slots := [[ANY, ANY, RED, DF5, ANY],
              [PPL, DF4, ANY, GRN, DF3],
              [DF6, ANY, ANY, BLU, ANY],
              [ANY, YEL, DF2, ANY, ANY]]
    value := 3 }

def fulgorDelCielo : BoardTemplate :=
  { slots := [[ANY, BLU, RED, ANY, ANY],
              [ANY, DF4, DF5, ANY, BLU],
              [BLU, DF2, ANY, RED, DF5],
              [DF6, RED, DF3, DF1, ANY]]
    value := 5 }

def sunCatcher : BoardTemplate :=
  { slots := [[ANY, BLU, DF2, ANY, YEL],
              [ANY, DF4, ANY, RED, ANY],
              [ANY, ANY, DF5, YEL, ANY],
              [GRN, DF3, ANY, ANY, PPL]]
    value := 3 }

def shadowThief : BoardTemplate :=
  { slots := [[DF6, PPL, ANY, ANY, DF5],
              [DF5, ANY, PPL, ANY, ANY],
              [RED, DF6, ANY, PPL, ANY],
              [YEL, RED, DF5, DF4, DF3]]
    value := 5 }

/-- The `ALL_BOARD_TEMPLATES`, flattened: the eight catalog boards. -/
def allBoardTemplates : List BoardTemplate :=
  [bellesguard, batllo, fractalDrops, ripplesOfLight,
   luzCelestial, fulgorDelCielo, sunCatcher, shadowThief]

/-! ## Characterising `GameState::init` (src/game.rs lines 28-76)

`init` draws all its randomness from `thread_rng`; `InitLike` captures the
shape every possible `init(n)` output has:

* the bag is a shuffle of `DICE_PER_COLOR` copies of `ALL_COLORS`
  (90 colors);
* `start_player_idx` is drawn from `0..num_players` and
  `curr_player_idx` starts equal to it, the phase is `SelectTemplate`,
  the draft pool and round track are empty, three tools and three
  objectives are drawn;
* players start with zero tokens, an all-default board, and templates
  drawn from the catalog.

On the number of players: `ALL_BOARD_TEMPLATES` holds only 4 template
pairs, and `choose_multiple(rng, num_players * 2)` returns at most 4 pairs;
`chunks(2)` therefore yields exactly 2 chunks, and the `zip` with the
chosen secret colors truncates the player list to 2 — for every requested
`num_players` in `2..=4`, `init` constructs exactly 2 players. -/

/-- The bag as manufactured before shuffling: `DICE_PER_COLOR` copies of
`ALL_COLORS`, 90 colors in total. -/
def standardBag : List Color :=
  (List.replicate DICE_PER_COLOR ALL_COLORS).flatten

/-- The states `GameState::init n` can return (randomness universally
quantified away). -/
structure InitLike (n : Nat) (s : GameState) : Prop where
  hn : 2 ≤ n ∧ n ≤ 4
  players_len : s.players.length = 2
  start_lt : s.start_player_idx < n
  curr_eq : s.curr_player_idx = s.start_player_idx
  phase_eq : s.phase = TurnPhase.SelectTemplate
  bag_perm : standardBag.Perm s.dice_bag
  pool_empty : s.draft_pool = []
  track_empty : s.round_track = []
  players_fresh : ∀ p ∈ s.players,
    p.board = emptyBoard ∧ p.tokens = 0 ∧ p.templates.length = 4 ∧
      ∀ t ∈ p.templates, t ∈ allBoardTemplates
  tools_len : s.tools.length = NUM_TOOLS
  objectives_len : s.objectives.length = NUM_OBJECTIVES

/-! ## Reachability and dice accounting -/

/-- Dice held on a board. -/
def boardCount (b : Board) : Nat :=
  (b.map fun row => row.countP fun c => c.die.isSome).sum

/-- Total dice in the system: bag + draft pool + round track + all dice
placed on all players' boards. -/
def totalDice (s : GameState) : Nat :=
  s.dice_bag.length + s.draft_pool.length + s.round_track.length +
    (s.players.map fun p => boardCount p.board).sum

/-- States reachable from an `init n` state through `take_turn` calls that
return `Ok` only. -/
inductive ReachOk (n : Nat) : GameState → Prop where
  | init (s : GameState) : InitLike n s → ReachOk n s
  | step (s s' : GameState) (rolls : List Nat) (a : TurnAction) (flag : Bool) :
      ReachOk n s → take_turn rolls s a = .ok flag s' → ReachOk n s'

/-- States reachable from an `init n` state through any sequence of
`take_turn` calls that return (`Ok` or `Err`; a Rust panic aborts the
process, so no state survives it). -/
inductive ReachAny (n : Nat) : GameState → Prop where
  | init (s : GameState) : InitLike n s → ReachAny n s
  | stepOk (s s' : GameState) (rolls : List Nat) (a : TurnAction) (flag : Bool) :
      ReachAny n s → take_turn rolls s a = .ok flag s' → ReachAny n s'
  | stepErr (s s' : GameState) (rolls : List Nat) (a : TurnAction) (msg : String) :
      ReachAny n s → take_turn rolls s a = .err msg s' → ReachAny n s'

/-- Run a list of (rolls, action) turns, stopping at the first call that
does not return `Ok`. -/
def runOk : GameState → List (List Nat × TurnAction) → TurnResult
  | s, [] => .ok (decide (s.phase = TurnPhase.GameOver)) s
  | s, (r, a) :: rest =>
      match take_turn r s a with
      | .ok _ s' => runOk s' rest
      | other => other

/-- Run a list of turns, always continuing from the state each call leaves
behind (`take_turn` mutates in place even on `Err`). -/
def runAll (s : GameState) (turns : List (List Nat × TurnAction)) : GameState :=
  turns.foldl (fun st ra => (take_turn ra.1 st ra.2).state) s

/-- Returns `true` for the abort outcomes. -/
def TurnResult.isPanic : TurnResult → Bool
  | .panicked _ _ => true
  | _ => false

/-- Returns `true` for the `Ok` outcomes. -/
def TurnResult.isOk : TurnResult → Bool
  | .ok _ _ => true
  | _ => false

/-- Predicate `SelSteps k s s''`: exactly `k` successful turns lead from `s` to
`s''`, each submitted while the phase is `SelectTemplate` (the claims'
"successful SelectTemplate actions"). -/
inductive SelSteps : Nat → GameState → GameState → Prop where
  | done (s : GameState) : SelSteps 0 s s
  | step (k : Nat) (s s'' : GameState) (rolls : List Nat) (a : TurnAction)
      (flag : Bool) (s' : GameState) :
      s.phase = TurnPhase.SelectTemplate →
      take_turn rolls s a = .ok flag s' →
      SelSteps k s' s'' → SelSteps (k + 1) s s''

/-! ## Concrete states used to instantiate the theorems

`gInit` fixes one possible outcome of `GameState::init(2)`: the identity
shuffle of the bag, start player 0, secrets Red/Yellow, the catalog pairs
dealt in order, the first three tools and objectives drawn. -/

def initPlayer0 : Player :=
  { tokens := 0, board := emptyBoard, secret := Color.Red,
    templates := [bellesguard, batllo, fractalDrops, ripplesOfLight] }

def initPlayer1 : Player :=
  { tokens := 0, board := emptyBoard, secret := Color.Yellow,
    templates := [luzCelestial, fulgorDelCielo, sunCatcher, shadowThief] }

def gInit : GameState :=
  { players := [initPlayer0, initPlayer1]
    start_player_idx := 0
    curr_player_idx := 0
    phase := TurnPhase.SelectTemplate
    dice_bag := standardBag
    draft_pool := []
    round_track := []
    tools := [⟨ToolType.BumpDraftedDie, 1⟩, ⟨ToolType.FlipDraftedDie, 1⟩,
              ⟨ToolType.RerollDraftedDie, 1⟩]
    objectives := [Objective.ColumnNumbers 4, Objective.RowNumbers 5,
                   Objective.Numbers 5] }

/-- The action `{ idx: 0, coords: None }` — the template-selection action used below
(also exactly `TurnAction::pass()` of the pass convention). -/
def selAct : TurnAction := { idx := 0, coords := none }

/-- State after both players selected their first template: phase
`FirstDraft`, draft pool `[R1, Y2, G3, B4, P5]`, bag down to 85. -/
def gDraft : GameState :=
  (take_turn [1, 2, 3, 4, 5] (take_turn [] gInit selAct).state selAct).state

/-- State left behind by the FAILED draft `idx 0 → (0,0)` from `gDraft`
(the Red die does not match player 0's Blue slot, yet it has already been
removed from the pool). -/
def gLeak : GameState :=
  (take_turn [] gDraft { idx := 0, coords := some (0, 0) }).state

/-- The five-turn trace that ends every first round: two template
selections, then the three successful drafts the engine allows before the
round-end assertion. -/
def round1Trace : List (List Nat × TurnAction) :=
  [([], selAct), ([1, 2, 3, 4, 5], selAct),
   ([], { idx := 0, coords := some (0, 2) }),
   ([], { idx := 0, coords := some (0, 0) }),
   ([], { idx := 0, coords := some (0, 1) })]

/-- State after player 0's template selection only. -/
def gSel1 : GameState := (take_turn [] gInit selAct).state

/-- An arbitrary finished game: `gInit` with the phase forced to
`GameOver` (what any completed run ends in). -/
def gOver : GameState := { gInit with phase := TurnPhase.GameOver }

/-- A board holding a single Red die at row 0, column 1 (all slots `Any`). -/
def c4Board : Board :=
  setCell emptyBoard 0 1 { slot := Slot.Any, die := some ⟨Color.Red, 5⟩ }

/-- A player owning `c4Board`. -/
def c4Player : Player :=
  { tokens := 0, board := c4Board, secret := Color.Blue, templates := [] }

/-- A player with 5 tokens left and a completely empty board. -/
def tokensPlayer : Player :=
  { tokens := 5, board := emptyBoard, secret := Color.Red, templates := [] }

/-- The score formula as the specification words it — the cell sum PLUS the
player's remaining tokens plus the objective scores.  (Spec-side
definition, for comparison with the source's `calculate_score`.) -/
def specScore (p : Player) (objectives : List Objective) : Int :=
  (p.board.flatten.map (cellScore p.secret)).sum + (p.tokens : Int)
    + (objectives.map fun o => o.score p.board).sum

/-- The row/column test as the claim words it: each of the six face values
1–6 appears exactly once among the occupied cells.  (Spec-side definition,
for comparison with the source's `distinct_numbers`.) -/
def claimRowSix (cells : List BoardCell) : Bool :=
  (List.range 6).all fun i =>
    (cells.countP fun c => c.die.any fun d => d.face = i + 1) = 1

/-- A board whose top row holds five dice with the distinct faces 1–5 (so
no face repeats, but face 6 is absent); the other rows are empty. -/
def c6Board : Board :=
  [⟨Slot.Any, some ⟨Color.Red, 1⟩⟩, ⟨Slot.Any, some ⟨Color.Yellow, 2⟩⟩,
   ⟨Slot.Any, some ⟨Color.Green, 3⟩⟩, ⟨Slot.Any, some ⟨Color.Blue, 4⟩⟩,
   ⟨Slot.Any, some ⟨Color.Purple, 5⟩⟩] ::
    List.replicate 3 (List.replicate 5 default)

/-- Well-formedness of a board: the 4 × 5 shape every Rust board has by
construction. -/
structure BoardWF (b : Board) : Prop where
  rows : b.length = BOARD_ROWS
  cols : ∀ row ∈ b, row.length = BOARD_COLS

/-- The cell written by a successful `place_die`: the target cell with the
die added. -/
def placedCell (p : Player) (coords : Nat × Nat) (die : Dice) : BoardCell :=
  { (p.board.getD coords.1 []).getD coords.2 default with die := some die }

/-- Invariant carried through every `Ok` step: the dice total is the
manufactured 90, the draft pool is empty while templates are being
selected, and every board keeps its 4 × 5 shape. -/
def Inv (s : GameState) : Prop :=
  totalDice s = DICE_PER_COLOR * 5 ∧
  (s.phase = TurnPhase.SelectTemplate → s.draft_pool = []) ∧
  ∀ p ∈ s.players, BoardWF p.board

/-- The faces of the dice present in a cell list, in order. -/
def facesOf (cells : List BoardCell) : List Nat :=
  (cells.filterMap fun c => c.die).map fun d => d.face

/-! ## List bookkeeping lemmas -/

lemma getD_of_getElem? {α : Type} :
    ∀ (l : List α) (i : Nat) (y d : α), l[i]? = some y → l.getD i d = y := by
  intro l i y d h
  rw [List.getD_eq_getElem?_getD, h]
  rfl

lemma countP_set_some {α : Type} (p : α → Bool) :
    ∀ (l : List α) (i : Nat) (x y : α), l[i]? = some y →
      (l.set i x).countP p + (if p y then 1 else 0)
        = l.countP p + (if p x then 1 else 0) := by
  intro l
  induction l with
  | nil => intro i x y h; simp at h
  | cons a t ih =>
      intro i x y h
      cases i with
      | zero =>
          simp only [List.getElem?_cons_zero, Option.some.injEq] at h
          subst h
          simp [List.set_cons_zero, List.countP_cons]
          omega
      | succ j =>
          simp only [List.getElem?_cons_succ] at h
          have := ih j x y h
          simp only [List.set_cons_succ, List.countP_cons]
          omega

lemma sum_map_set_some {α : Type} (f : α → Nat) :
    ∀ (l : List α) (i : Nat) (x y : α), l[i]? = some y →
      ((l.set i x).map f).sum + f y = (l.map f).sum + f x := by
  intro l
  induction l with
  | nil => intro i x y h; simp at h
  | cons a t ih =>
      intro i x y h
      cases i with
      | zero =>
          simp only [List.getElem?_cons_zero, Option.some.injEq] at h
          subst h
          simp [List.set_cons_zero]
          omega
      | succ j =>
          simp only [List.getElem?_cons_succ] at h
          have := ih j x y h
          simp only [List.set_cons_succ, List.map_cons, List.sum_cons]
          omega

lemma length_eraseIdx_some {α : Type} (l : List α) (i : Nat) (y : α)
    (h : l[i]? = some y) : (l.eraseIdx i).length + 1 = l.length := by
  have hi : i < l.length := by
    by_contra hc
    rw [List.getElem?_eq_none (by omega)] at h
    exact Option.noConfusion h
  rw [List.length_eraseIdx]
  simp [hi]
  omega

lemma rollAll_length : ∀ (rs : List Nat) (cs : List Color),
    (rollAll rs cs).length = cs.length := by
  intro rs cs
  induction cs generalizing rs with
  | nil => rfl
  | cons c t ih => simp [rollAll, ih]

lemma mem_of_getElem?_some {α : Type} {l : List α} {i : Nat} {y : α}
    (h : l[i]? = some y) : y ∈ l := by
  have hi : i < l.length := by
    by_contra hc
    rw [List.getElem?_eq_none (by omega)] at h
    exact Option.noConfusion h
  rw [List.getElem?_eq_getElem hi] at h
  cases h
  exact List.getElem_mem hi

lemma range_map_getD {α : Type} :
    ∀ (l : List α) (d : α),
      (List.range l.length).map (fun j => l.getD j d) = l := by
  intro l
  induction l with
  | nil => intro d; rfl
  | cons a t ih =>
      intro d
      rw [List.length_cons, List.range_succ_eq_map, List.map_cons,
          List.map_map]
      simp only [List.getD_cons_zero]
      congr 1
      have : ((fun j => (a :: t).getD j d) ∘ Nat.succ) = fun j => t.getD j d := by
        funext j
        simp [Function.comp, List.getD_cons_succ]
      rw [this, ih]

/-! ## Board bookkeeping -/

lemma boardWF_emptyBoard : BoardWF emptyBoard := by
  constructor
  · simp [emptyBoard]
  · intro row hrow
    simp only [emptyBoard, List.mem_replicate] at hrow
    rw [hrow.2]
    simp

lemma boardWF_applyTemplate (b : Board) (slots : List (List Slot)) :
    BoardWF (applyTemplate b slots) := by
  constructor
  · simp [applyTemplate]
  · intro row hrow
    simp only [applyTemplate, List.mem_map] at hrow
    obtain ⟨i, _, hrow⟩ := hrow
    rw [← hrow]
    simp

lemma boardWF_setCell (b : Board) (r c : Nat) (cell : BoardCell)
    (row0 : List BoardCell) (hr : b[r]? = some row0)
    (h : BoardWF b) : BoardWF (setCell b r c cell) := by
  constructor
  · simp [setCell, h.rows]
  · intro row hrow
    rcases List.mem_or_eq_of_mem_set hrow with hmem | heq
    · exact h.cols row hmem
    · subst heq
      rw [getD_of_getElem? b r row0 [] hr, List.length_set]
      exact h.cols row0 (mem_of_getElem?_some hr)

lemma rowCount_overlay (row : List BoardCell) (g : Nat → Slot)
    (h : row.length = BOARD_COLS) :
    ((List.range BOARD_COLS).map fun j =>
        ({ row.getD j default with slot := g j } : BoardCell)).countP
      (fun c => c.die.isSome)
    = row.countP (fun c => c.die.isSome) := by
  rw [List.countP_map]
  have : ((fun c : BoardCell => c.die.isSome) ∘ fun j =>
      ({ row.getD j default with slot := g j } : BoardCell))
      = ((fun c : BoardCell => c.die.isSome) ∘ fun j => row.getD j default) := by
    funext j
    rfl
  rw [this, ← List.countP_map, ← h, range_map_getD]

lemma boardCount_applyTemplate (b : Board) (slots : List (List Slot))
    (h : BoardWF b) :
    boardCount (applyTemplate b slots) = boardCount b := by
  have hrow : ∀ i, ((List.range BOARD_COLS).map fun j =>
      ({ (b.getD i []).getD j default with
         slot := (slots.getD i []).getD j Slot.Any } : BoardCell)).countP
        (fun c => c.die.isSome)
      = (b.getD i []).countP (fun c => c.die.isSome) := by
    intro i
    rcases hi : b[i]? with _ | row
    · have hbd : b.getD i [] = [] := by
        rw [List.getD_eq_getElem?_getD, hi]
        rfl
      rw [hbd]
      rw [List.countP_eq_zero.mpr]
      · rfl
      · intro a ha
        simp only [List.mem_map] at ha
        obtain ⟨j, _, ha⟩ := ha
        rw [← ha]
        exact fun hcon => Bool.noConfusion hcon
    · have hbd : b.getD i [] = row := getD_of_getElem? b i row [] hi
      rw [hbd]
      exact rowCount_overlay row _ (h.cols row (mem_of_getElem?_some hi))
  unfold boardCount applyTemplate
  rw [List.map_map]
  have h1 : List.map
        ((fun row => row.countP fun c => c.die.isSome) ∘ fun i =>
          (List.range BOARD_COLS).map fun j =>
            ({ (b.getD i []).getD j default with
               slot := (slots.getD i []).getD j Slot.Any } : BoardCell))
        (List.range BOARD_ROWS)
      = List.map (fun i => (b.getD i []).countP fun c => c.die.isSome)
          (List.range BOARD_ROWS) :=
    List.map_congr_left fun i _ => hrow i
  rw [h1]
  have h2 : List.map (fun i => (b.getD i []).countP fun c => c.die.isSome)
        (List.range BOARD_ROWS)
      = List.map (fun row => row.countP fun c => c.die.isSome)
          (List.map (fun i => b.getD i []) (List.range BOARD_ROWS)) := by
    rw [List.map_map]
    rfl
  rw [h2, ← h.rows, range_map_getD]

lemma boardCount_setCell (b : Board) (r c : Nat) (cell : BoardCell)
    (row : List BoardCell) (old : BoardCell)
    (hr : b[r]? = some row) (hc : row[c]? = some old) :
    boardCount (setCell b r c cell) + (if old.die.isSome then 1 else 0)
      = boardCount b + (if cell.die.isSome then 1 else 0) := by
  unfold boardCount setCell
  rw [getD_of_getElem? b r row [] hr]
  have hrowset := countP_set_some (fun x : BoardCell => x.die.isSome) row c cell old hc
  have hsum := sum_map_set_some (fun row : List BoardCell => row.countP fun x => x.die.isSome)
    b r (row.set c cell) row hr
  simp only at hrowset hsum ⊢
  omega

/-! ## Inversion lemmas for the engine operations -/

lemma select_template_ok_spec {p p' : Player} {idx : Nat}
    (h : p.select_template idx = .ok p') :
    ∃ t, p.templates[idx]? = some t ∧
      p' = { p with tokens := t.value, board := applyTemplate p.board t.slots } := by
  unfold Player.select_template at h
  split at h
  · exact Except.noConfusion h
  · rename_i t ht
    cases h
    exact ⟨t, ht, rfl⟩

lemma place_die_ok_spec {p p' : Player} {coords : Nat × Nat} {die : Dice}
    (h : p.place_die coords die = .ok p') :
    coords.1 < BOARD_ROWS ∧ coords.2 < BOARD_COLS ∧
    ((p.board.getD coords.1 []).getD coords.2 default).die = none ∧
    p' = { p with
           board := setCell p.board coords.1 coords.2 (placedCell p coords die) } := by
  simp only [Player.place_die] at h
  split at h
  · rename_i hrange
    split at h
    · exact Except.noConfusion h
    · rename_i hocc
      split at h
      · exact Except.noConfusion h
      · cases h
        refine ⟨hrange.1, hrange.2, ?_, rfl⟩
        cases hdie : ((p.board.getD coords.1 []).getD coords.2 default).die with
        | none => rfl
        | some d => rw [hdie] at hocc; simp at hocc
  · exact Except.noConfusion h

lemma start_round_some_spec {rolls : List Nat} {s s' : GameState}
    (h : start_round rolls s = some s') :
    pool_size s ≤ s.dice_bag.length ∧
    s' = { s with
           dice_bag := s.dice_bag.take (s.dice_bag.length - pool_size s)
           draft_pool := rollAll rolls (s.dice_bag.drop (s.dice_bag.length - pool_size s))
           phase := TurnPhase.FirstDraft } := by
  unfold start_round at h
  split at h
  · rename_i hle
    cases h
    exact ⟨hle, rfl⟩
  · exact Option.noConfusion h

lemma finish_round_some_spec {s s' : GameState}
    (h : finish_round s = some s') :
    s.draft_pool.length = 1 ∧
    s' = { s with
           draft_pool := []
           round_track := s.round_track ++ s.draft_pool
           start_player_idx := next_idx s s.start_player_idx } := by
  unfold finish_round at h
  split at h
  · rename_i hlen
    cases h
    exact ⟨hlen, rfl⟩
  · exact Option.noConfusion h

/-! ## Conservation of dice across successful turns -/

lemma boardCount_select_ok {p pl' : Player} {idx : Nat}
    (hsel : p.select_template idx = .ok pl') (hwf : BoardWF p.board) :
    boardCount pl'.board = boardCount p.board ∧ BoardWF pl'.board := by
  obtain ⟨t, ht, rfl⟩ := select_template_ok_spec hsel
  exact ⟨boardCount_applyTemplate _ _ hwf, boardWF_applyTemplate _ _⟩

lemma boardCount_place_ok {pl pl' : Player} {coords : Nat × Nat} {die : Dice}
    (hp : pl.place_die coords die = .ok pl') (hwf : BoardWF pl.board) :
    boardCount pl'.board = boardCount pl.board + 1 ∧ BoardWF pl'.board := by
  obtain ⟨hr, hc, hdie, rfl⟩ := place_die_ok_spec hp
  have h1 : coords.1 < pl.board.length := lt_of_lt_of_eq hr hwf.rows.symm
  have hrow : pl.board[coords.1]? = some pl.board[coords.1] :=
    List.getElem?_eq_getElem h1
  have hgetD : pl.board.getD coords.1 [] = pl.board[coords.1] :=
    getD_of_getElem? _ _ _ _ hrow
  have h2 : coords.2 < pl.board[coords.1].length :=
    lt_of_lt_of_eq hc (hwf.cols _ (List.getElem_mem h1)).symm
  have hcell : pl.board[coords.1][coords.2]? = some pl.board[coords.1][coords.2] :=
    List.getElem?_eq_getElem h2
  have hgetD2 : pl.board[coords.1].getD coords.2 default
      = pl.board[coords.1][coords.2] :=
    getD_of_getElem? _ _ _ _ hcell
  have holddie : pl.board[coords.1][coords.2].die = none := by
    rw [← hgetD2, ← hgetD]
    exact hdie
  have hcnt := boardCount_setCell pl.board coords.1 coords.2
    (placedCell pl coords die) pl.board[coords.1] pl.board[coords.1][coords.2]
    hrow hcell
  have hpd : (placedCell pl coords die).die = some die := rfl
  rw [holddie, hpd] at hcnt
  simp at hcnt
  constructor
  · show boardCount (setCell pl.board coords.1 coords.2 (placedCell pl coords die))
        = boardCount pl.board + 1
    omega
  · exact boardWF_setCell _ _ _ _ _ hrow hwf

lemma players_sum_set {players : List Player} {i : Nat} {pl pl' : Player}
    (hpl : players[i]? = some pl) (hcnt : boardCount pl'.board = boardCount pl.board) :
    ((players.set i pl').map fun p => boardCount p.board).sum
      = (players.map fun p => boardCount p.board).sum := by
  have := sum_map_set_some (fun p : Player => boardCount p.board) players i pl' pl hpl
  simp only at this
  omega

lemma players_wf_set {players : List Player} {i : Nat} {pl' : Player}
    (hwf : ∀ p ∈ players, BoardWF p.board) (hwf' : BoardWF pl'.board) :
    ∀ p ∈ players.set i pl', BoardWF p.board := by
  intro p hp
  rcases List.mem_or_eq_of_mem_set hp with hmem | heq
  · exact hwf p hmem
  · rw [heq]; exact hwf'

lemma selectPhase_inv {rolls : List Nat} {s : GameState} {a : TurnAction}
    {flag : Bool} {s' : GameState}
    (h : selectPhase rolls s a = .ok flag s')
    (hphase : s.phase = TurnPhase.SelectTemplate)
    (hinv : Inv s) : Inv s' := by
  obtain ⟨htot, hpool, hwf⟩ := hinv
  have hpe : s.draft_pool = [] := hpool hphase
  simp only [selectPhase] at h
  split at h
  · exact TurnResult.noConfusion h
  · rename_i pl hpl
    split at h
    · exact TurnResult.noConfusion h
    · rename_i pl' hsel
      obtain ⟨hcnt, hwf'⟩ :=
        boardCount_select_ok hsel (hwf pl (mem_of_getElem?_some hpl))
      have hsum := players_sum_set hpl hcnt
      split at h
      · -- wrap-around: a new round is drawn
        split at h
        · exact TurnResult.noConfusion h
        · rename_i s2 hsr
          cases h
          obtain ⟨hle, hs2⟩ := start_round_some_spec hsr
          subst hs2
          refine ⟨?_, ?_, ?_⟩
          · unfold totalDice at htot ⊢
            simp only [pool_size, List.length_set, List.length_take,
              List.length_drop] at hle ⊢
            rw [rollAll_length, List.length_drop]
            rw [hpe] at htot
            simp only [List.length_nil] at htot
            rw [hsum]
            omega
          · intro hph
            exact TurnPhase.noConfusion hph
          · exact players_wf_set hwf hwf'
      · cases h
        refine ⟨?_, ?_, ?_⟩
        · unfold totalDice at htot ⊢
          simp only at htot ⊢
          rw [hsum]
          exact htot
        · intro _
          exact hpe
        · exact players_wf_set hwf hwf'

lemma players_sum_set_add {players : List Player} {i : Nat} {pl pl' : Player}
    (hpl : players[i]? = some pl)
    (hcnt : boardCount pl'.board = boardCount pl.board + 1) :
    ((players.set i pl').map fun p => boardCount p.board).sum
      = (players.map fun p => boardCount p.board).sum + 1 := by
  have := sum_map_set_some (fun p : Player => boardCount p.board) players i pl' pl hpl
  simp only at this
  omega

lemma firstDraftPhase_inv {s : GameState} {a : TurnAction}
    {flag : Bool} {s' : GameState}
    (h : firstDraftPhase s a = .ok flag s')
    (hphase : s.phase = TurnPhase.FirstDraft)
    (hinv : Inv s) : Inv s' := by
  obtain ⟨htot, _, hwf⟩ := hinv
  simp only [firstDraftPhase] at h
  split at h
  · exact TurnResult.noConfusion h
  · rename_i coords hcoords
    split at h
    · exact TurnResult.noConfusion h
    · rename_i die hdie
      split at h
      · exact TurnResult.noConfusion h
      · rename_i pl hpl
        split at h
        · exact TurnResult.noConfusion h
        · rename_i pl' hplace
          obtain ⟨hcnt, hwf'⟩ :=
            boardCount_place_ok hplace (hwf pl (mem_of_getElem?_some hpl))
          have hsum := players_sum_set_add hpl hcnt
          have herase := length_eraseIdx_some s.draft_pool a.idx die hdie
          split at h
          · cases h
            refine ⟨?_, ?_, ?_⟩
            · unfold totalDice at htot ⊢
              simp only [List.length_set] at htot ⊢
              rw [hsum]
              omega
            · intro hph
              exact TurnPhase.noConfusion hph
            · exact players_wf_set hwf hwf'
          · cases h
            refine ⟨?_, ?_, ?_⟩
            · unfold totalDice at htot ⊢
              simp only [List.length_set] at htot ⊢
              rw [hsum]
              omega
            · intro hph
              rw [hphase] at hph
              exact TurnPhase.noConfusion hph
            · exact players_wf_set hwf hwf'

lemma secondDraftPhase_inv {rolls : List Nat} {s : GameState} {a : TurnAction}
    {flag : Bool} {s' : GameState}
    (h : secondDraftPhase rolls s a = .ok flag s')
    (hphase : s.phase = TurnPhase.SecondDraft)
    (hinv : Inv s) : Inv s' := by
  obtain ⟨htot, _, hwf⟩ := hinv
  simp only [secondDraftPhase] at h
  split at h
  · exact TurnResult.noConfusion h
  · rename_i coords hcoords
    split at h
    · exact TurnResult.noConfusion h
    · rename_i die hdie
      split at h
      · exact TurnResult.noConfusion h
      · rename_i pl hpl
        split at h
        · exact TurnResult.noConfusion h
        · rename_i pl' hplace
          obtain ⟨hcnt, hwf'⟩ :=
            boardCount_place_ok hplace (hwf pl (mem_of_getElem?_some hpl))
          have hsum := players_sum_set_add hpl hcnt
          have herase := length_eraseIdx_some s.draft_pool a.idx die hdie
          split at h
          · -- the turn pointer reached the start player: the round ends
            split at h
            · exact TurnResult.noConfusion h
            · rename_i s4 hfin
              obtain ⟨hlen1, hs4⟩ := finish_round_some_spec hfin
              subst hs4
              split at h
              · cases h
                refine ⟨?_, ?_, ?_⟩
                · unfold totalDice at htot ⊢
                  simp only [List.length_set, List.length_append,
                    List.length_nil] at htot ⊢
                  rw [hsum]
                  omega
                · intro hph
                  exact TurnPhase.noConfusion hph
                · exact players_wf_set hwf hwf'
              · split at h
                · exact TurnResult.noConfusion h
                · rename_i s5 hsr
                  cases h
                  obtain ⟨hle, hs5⟩ := start_round_some_spec hsr
                  subst hs5
                  refine ⟨?_, ?_, ?_⟩
                  · unfold totalDice at htot ⊢
                    simp only [pool_size, List.length_set, List.length_take,
                      List.length_drop, List.length_append,
                      List.length_nil] at hle htot ⊢
                    rw [rollAll_length, List.length_drop]
                    rw [hsum]
                    omega
                  · intro hph
                    exact TurnPhase.noConfusion hph
                  · exact players_wf_set hwf hwf'
          · cases h
            refine ⟨?_, ?_, ?_⟩
            · unfold totalDice at htot ⊢
              simp only [List.length_set] at htot ⊢
              rw [hsum]
              omega
            · intro hph
              rw [hphase] at hph
              exact TurnPhase.noConfusion hph
            · exact players_wf_set hwf hwf'

/-- Every `take_turn` call that returns `Ok` preserves the invariant. -/
lemma take_turn_inv {rolls : List Nat} {s : GameState} {a : TurnAction}
    {flag : Bool} {s' : GameState}
    (h : take_turn rolls s a = .ok flag s') (hinv : Inv s) : Inv s' := by
  unfold take_turn at h
  rcases hphase : s.phase with _ | _ | _ | _ <;> rw [hphase] at h
  · exact selectPhase_inv h hphase hinv
  · exact firstDraftPhase_inv h hphase hinv
  · exact secondDraftPhase_inv h hphase hinv
  · exact TurnResult.noConfusion h

/-- An `init`-shaped state satisfies the invariant. -/
lemma initLike_inv {n : Nat} {s : GameState} (h : InitLike n s) : Inv s := by
  refine ⟨?_, fun _ => h.pool_empty, ?_⟩
  · unfold totalDice
    rw [h.pool_empty, h.track_empty, ← h.bag_perm.length_eq]
    have hbag : standardBag.length = DICE_PER_COLOR * 5 := by decide
    have hsum : (s.players.map fun p => boardCount p.board).sum = 0 := by
      apply List.sum_eq_zero
      intro x hx
      simp only [List.mem_map] at hx
      obtain ⟨p, hp, hx⟩ := hx
      rw [← hx, (h.players_fresh p hp).1]
      decide
    rw [hsum, hbag]
    rfl
  · intro p hp
    rw [(h.players_fresh p hp).1]
    exact boardWF_emptyBoard

/-- The invariant holds in every state reachable through successful turns. -/
lemma reachOk_inv {n : Nat} {s : GameState} (h : ReachOk n s) : Inv s := by
  induction h with
  | init s hinit => exact initLike_inv hinit
  | step s s' rolls a flag _ hstep ih => exact take_turn_inv hstep ih

/-! ## Inversion of the SelectTemplate phase, and the two-selection prefix -/

lemma selectPhase_ok_cases {rolls : List Nat} {s : GameState} {a : TurnAction}
    {flag : Bool} {s' : GameState}
    (h : selectPhase rolls s a = .ok flag s') :
    ∃ pl pl', s.players[s.curr_player_idx]? = some pl ∧
      pl.select_template a.idx = .ok pl' ∧
      ((next_idx s s.curr_player_idx ≠ s.start_player_idx ∧
         s' = { s with players := s.players.set s.curr_player_idx pl'
                       curr_player_idx := next_idx s s.curr_player_idx }) ∨
       (next_idx s s.curr_player_idx = s.start_player_idx ∧
         start_round rolls
           { s with players := s.players.set s.curr_player_idx pl'
                    curr_player_idx := next_idx s s.curr_player_idx } = some s')) := by
  simp only [selectPhase] at h
  split at h
  · exact TurnResult.noConfusion h
  · rename_i pl hpl
    split at h
    · exact TurnResult.noConfusion h
    · rename_i pl' hsel
      split at h
      · rename_i hwrap
        split at h
        · exact TurnResult.noConfusion h
        · rename_i s2 hsr
          cases h
          exact ⟨pl, pl', hpl, hsel, Or.inr ⟨hwrap, hsr⟩⟩
      · rename_i hnwrap
        cases h
        exact ⟨pl, pl', hpl, hsel, Or.inl ⟨hnwrap, rfl⟩⟩

/-- With two players (which is what `init` builds, see `InitLike`), two
successful turns from the initial state finish the template-selection
phase: the second one wraps the pointer and draws the first draft pool. -/
lemma two_select_steps {s0 s1 s2 : GameState}
    (hlen : s0.players.length = 2)
    (hcurr : s0.curr_player_idx = s0.start_player_idx)
    (hphase : s0.phase = TurnPhase.SelectTemplate)
    {r1 : List Nat} {a1 : TurnAction} {f1 : Bool}
    (h1 : take_turn r1 s0 a1 = .ok f1 s1)
    {r2 : List Nat} {a2 : TurnAction} {f2 : Bool}
    (h2 : take_turn r2 s1 a2 = .ok f2 s2) :
    s2.phase = TurnPhase.FirstDraft ∧
    s2.draft_pool.length = 5 ∧
    s2.curr_player_idx = s2.start_player_idx ∧
    s2.dice_bag.length = s0.dice_bag.length - 5 := by
  unfold take_turn at h1
  rw [hphase] at h1
  obtain ⟨pl, pl', hpl, _, hbr⟩ := selectPhase_ok_cases h1
  have hcurrlt : s0.curr_player_idx < 2 := by
    have : s0.curr_player_idx < s0.players.length := by
      by_contra hc
      rw [List.getElem?_eq_none (by omega)] at hpl
      exact Option.noConfusion hpl
    omega
  have hnowrap : next_idx s0 s0.curr_player_idx ≠ s0.start_player_idx := by
    unfold next_idx
    rw [hlen, ← hcurr]
    omega
  rcases hbr with ⟨_, hs1⟩ | ⟨hwrap, _⟩
  · subst hs1
    unfold take_turn at h2
    have hph1 : s0.phase = TurnPhase.SelectTemplate := hphase
    rw [hphase] at h2
    obtain ⟨pl2, pl2', hpl2, _, hbr2⟩ := selectPhase_ok_cases h2
    have hwrap2 : next_idx
        { s0 with players := s0.players.set s0.curr_player_idx pl'
                  curr_player_idx := next_idx s0 s0.curr_player_idx }
        (next_idx s0 s0.curr_player_idx) = s0.start_player_idx := by
      unfold next_idx
      simp only [List.length_set]
      rw [hlen, ← hcurr]
      omega
    rcases hbr2 with ⟨hnw2, _⟩ | ⟨_, hsr2⟩
    · exact absurd hwrap2 hnw2
    · obtain ⟨hle, hs2⟩ := start_round_some_spec hsr2
      subst hs2
      simp only [pool_size, List.length_set, hlen] at hle
      refine ⟨rfl, ?_, ?_, ?_⟩
      · simp only [rollAll_length, List.length_drop, List.length_set]
        simp only [pool_size, List.length_set, hlen]
        omega
      · simp only [next_idx, List.length_set, hlen, ← hcurr]
        omega
      · simp only [List.length_take, List.length_set]
        simp only [pool_size, List.length_set, hlen]
        omega
  · exact absurd hwrap hnowrap

/-! ## What `distinct_numbers` actually tests -/

lemma getD_set_self_bool (l : List Bool) (i : Nat) (x : Bool) (h : i < l.length) :
    (l.set i x).getD i false = x := by
  induction l generalizing i with
  | nil => simp at h
  | cons a t ih =>
      cases i with
      | zero => rfl
      | succ j =>
          simp only [List.set_cons_succ, List.getD_cons_succ]
          exact ih j (by simp at h; omega)

lemma getD_set_ne_bool (l : List Bool) (i j : Nat) (x : Bool) (h : i ≠ j) :
    (l.set i x).getD j false = l.getD j false := by
  induction l generalizing i j with
  | nil => rfl
  | cons a t ih =>
      cases i with
      | zero =>
          cases j with
          | zero => exact absurd rfl h
          | succ k => simp [List.set_cons_zero, List.getD_cons_succ]
      | succ i' =>
          cases j with
          | zero => simp [List.set_cons_succ, List.getD_cons_zero]
          | succ k =>
              simp only [List.set_cons_succ, List.getD_cons_succ]
              exact ih i' k fun hc => h (by rw [hc])

lemma getD_replicate_false (n j : Nat) :
    (List.replicate n false).getD j false = false := by
  induction n generalizing j with
  | zero => rfl
  | succ m ih =>
      cases j with
      | zero => rfl
      | succ k =>
          rw [List.replicate_succ, List.getD_cons_succ]
          exact ih k

lemma mem_facesOf_range {cells : List BoardCell}
    (hfaces : ∀ c ∈ cells, ∀ d, c.die = some d → 1 ≤ d.face ∧ d.face ≤ 6)
    {f : Nat} (hf : f ∈ facesOf cells) : 1 ≤ f ∧ f ≤ 6 := by
  simp only [facesOf, List.mem_map, List.mem_filterMap] at hf
  obtain ⟨d, ⟨c, hc, hcd⟩, hfd⟩ := hf
  rw [← hfd]
  exact hfaces c hc d hcd

lemma distinctNumbersAux_spec :
    ∀ (cells : List BoardCell) (seen : List Bool), seen.length = 6 →
      (∀ c ∈ cells, ∀ d, c.die = some d → 1 ≤ d.face ∧ d.face ≤ 6) →
      (distinctNumbersAux seen cells = true ↔
        (∀ c ∈ cells, c.die.isSome = true) ∧ (facesOf cells).Nodup ∧
          ∀ f ∈ facesOf cells, seen.getD (f - 1) false = false) := by
  intro cells
  induction cells with
  | nil =>
      intro seen _ _
      simp [distinctNumbersAux, facesOf]
  | cons c rest ih =>
      intro seen hlen hfaces
      have hfaces' : ∀ c' ∈ rest, ∀ d, c'.die = some d → 1 ≤ d.face ∧ d.face ≤ 6 :=
        fun c' hc' => hfaces c' (List.mem_cons_of_mem _ hc')
      rcases hc : c.die with _ | d
      · simp only [distinctNumbersAux, hc]
        constructor
        · intro hcon
          exact Bool.noConfusion hcon
        · rintro ⟨hall, -, -⟩
          have := hall c (List.mem_cons_self _ _)
          rw [hc] at this
          exact Bool.noConfusion this
      · have hdr : 1 ≤ d.face ∧ d.face ≤ 6 := hfaces c (List.mem_cons_self _ _) d hc
        have hfo : facesOf (c :: rest) = d.face :: facesOf rest := by
          simp [facesOf, hc]
        cases hseen : seen.getD (d.face - 1) false with
        | true =>
            simp only [distinctNumbersAux, hc, hseen, if_true]
            constructor
            · intro hcon
              exact Bool.noConfusion hcon
            · rintro ⟨-, -, hfresh⟩
              have := hfresh d.face (by rw [hfo]; exact List.mem_cons_self _ _)
              rw [hseen] at this
              exact Bool.noConfusion this
        | false =>
            simp only [distinctNumbersAux, hc, hseen, Bool.false_eq_true, if_false]
            rw [ih (seen.set (d.face - 1) true)
              (by rw [List.length_set]; exact hlen) hfaces']
            rw [hfo]
            constructor
            · rintro ⟨hall, hnd, hfresh⟩
              refine ⟨?_, ?_, ?_⟩
              · intro c' hc'
                rcases List.mem_cons.mp hc' with rfl | hmem
                · rw [hc]; rfl
                · exact hall c' hmem
              · rw [List.nodup_cons]
                refine ⟨?_, hnd⟩
                intro hmem
                have := hfresh d.face hmem
                rw [getD_set_self_bool seen (d.face - 1) true (by omega)] at this
                exact Bool.noConfusion this
              · intro f hf
                rcases List.mem_cons.mp hf with rfl | hmem
                · exact hseen
                · have := hfresh f hmem
                  have hfr := mem_facesOf_range hfaces' hmem
                  by_cases hfe : f = d.face
                  · rw [hfe]
                    exact hseen
                  · rw [getD_set_ne_bool seen (d.face - 1) (f - 1) true (by omega)] at this
                    exact this
            · rintro ⟨hall, hnd, hfresh⟩
              rw [List.nodup_cons] at hnd
              refine ⟨fun c' hc' => hall c' (List.mem_cons_of_mem _ hc'), hnd.2, ?_⟩
              intro f hf
              have hfr := mem_facesOf_range hfaces' hf
              have hne : f ≠ d.face := fun hfe => hnd.1 (hfe ▸ hf)
              rw [getD_set_ne_bool seen (d.face - 1) (f - 1) true (by omega)]
              exact hfresh f (List.mem_cons_of_mem _ hf)

/-- Source `distinct_numbers` holds exactly when every cell is occupied and no two
dice share a face — it does NOT ask for all six faces to be present. -/
lemma distinct_numbers_spec (cells : List BoardCell)
    (hfaces : ∀ c ∈ cells, ∀ d, c.die = some d → 1 ≤ d.face ∧ d.face ≤ 6) :
    distinct_numbers cells = true ↔
      (∀ c ∈ cells, c.die.isSome = true) ∧ (facesOf cells).Nodup := by
  unfold distinct_numbers
  rw [distinctNumbersAux_spec cells (List.replicate 6 false) (by simp) hfaces]
  constructor
  · rintro ⟨h1, h2, -⟩
    exact ⟨h1, h2⟩
  · rintro ⟨h1, h2⟩
    exact ⟨h1, h2, fun f _ => getD_replicate_false 6 (f - 1)⟩

/-! ## Cell-sum decomposition for the score formula -/

lemma cellSum_counts (secret : Color) :
    ∀ (l : List BoardCell),
      (l.map (cellScore secret)).sum
        = (l.countP (fun c => c.die.any fun d => decide (d.color = secret)) : Int)
          - (l.countP (fun c => c.die.isNone) : Int) := by
  intro l
  induction l with
  | nil => rfl
  | cons c t ih =>
      simp only [List.map_cons, List.sum_cons, List.countP_cons, ih]
      rcases hc : c.die with _ | d
      · simp only [cellScore, hc, Option.any_none, Option.isNone_none]
        push_cast
        ring
      · by_cases hcol : d.color = secret
        · simp only [cellScore, hc, hcol, if_true, Option.any_some,
            Option.isNone_some, decide_True]
          push_cast
          ring
        · simp only [cellScore, hc, hcol, if_false, Option.any_some,
            Option.isNone_some, decide_False]
          push_cast
          ring

/-! ## Column cells inherit the board's face bounds -/

lemma column_faces_range {b : Board}
    (hfaces : ∀ row ∈ b, ∀ c ∈ row, ∀ d, c.die = some d → 1 ≤ d.face ∧ d.face ≤ 6)
    (i : Nat) :
    ∀ c ∈ column b i, ∀ d, c.die = some d → 1 ≤ d.face ∧ d.face ≤ 6 := by
  intro c hc d hd
  simp only [column, List.mem_map] at hc
  obtain ⟨row, hrow, hcell⟩ := hc
  rw [← hcell] at hd
  rcases hri : row[i]? with _ | cell
  · rw [List.getD_eq_getElem?_getD, hri] at hd
    exact Option.noConfusion hd
  · rw [getD_of_getElem? row i cell default hri] at hd
    exact hfaces row hrow cell (mem_of_getElem?_some hri) d hd

lemma distinct_numbers_eq_decide (cells : List BoardCell)
    (hfaces : ∀ c ∈ cells, ∀ d, c.die = some d → 1 ≤ d.face ∧ d.face ≤ 6) :
    distinct_numbers cells
      = decide ((∀ c ∈ cells, c.die.isSome = true) ∧ (facesOf cells).Nodup) := by
  cases h : distinct_numbers cells with
  | false =>
      symm
      rw [decide_eq_false_iff_not]
      intro hp
      have := (distinct_numbers_spec cells hfaces).mpr hp
      rw [h] at this
      exact Bool.noConfusion this
  | true =>
      symm
      rw [decide_eq_true_eq]
      exact (distinct_numbers_spec cells hfaces).mp h

/-! ## The concrete `gInit` really is an `init(2)` state -/

lemma gInit_initLike : InitLike 2 gInit :=
  { hn := by decide
    players_len := by decide
    start_lt := by decide
    curr_eq := rfl
    phase_eq := rfl
    bag_perm := List.Perm.refl _
    pool_empty := rfl
    track_empty := rfl
    players_fresh := by decide
    tools_len := by decide
    objectives_len := by decide }

/-! ## Claim C1 — conservation of the dice total -/

/-- C1 (amended): for every game state reachable from an `init(n)` state
(2 ≤ n ≤ 4) by a sequence of SUCCESSFUL `take_turn` calls, the total number
of dice across the dice bag, the draft pool, the round track and all dice
placed on all players' boards equals the manufactured total
`DICE_PER_COLOR * 5 = 90`.  (The claim's original "any sequence of
take_turn calls" fails: an erroring call can lose a die, see
`c1_counterexample`.) -/
theorem c1_dice_conservation {n : Nat} {s : GameState} (h : ReachOk n s) :
    totalDice s = DICE_PER_COLOR * 5 :=
  (reachOk_inv h).1

/-- Witness for C1: the conservation theorem applied to a concrete
reachable state. -/
theorem c1_dice_conservation_witness : totalDice gInit = DICE_PER_COLOR * 5 :=
  c1_dice_conservation (ReachOk.init gInit gInit_initLike)

/-- C1 counterexample: the claim as stated — counting states reached
through ARBITRARY `take_turn` calls, including rejected ones — is false.
After two template selections, submitting the draft `idx 0 → (0,0)` makes
`take_turn` return an error ("Die color does not match slot"), yet the
chosen die has already been removed from the draft pool and is dropped:
the reachable state `gLeak` holds only 89 dice. -/
theorem c1_counterexample :
    ReachAny 2 gLeak ∧ totalDice gLeak ≠ DICE_PER_COLOR * 5 := by
  constructor
  · refine ReachAny.stepErr gDraft gLeak [] { idx := 0, coords := some (0, 0) }
      "Die color does not match slot" ?_ (by decide)
    refine ReachAny.stepOk gSel1 gDraft [1, 2, 3, 4, 5] selAct false ?_ (by decide)
    exact ReachAny.stepOk gInit gSel1 [] selAct false
      (ReachAny.init gInit gInit_initLike) (by decide)
  · decide

/-! ## Claim C2 — errors are NOT free of side effects -/

/-- C2 (code bug): `take_turn` is not atomic on error.  In the draft
phases the chosen die is removed from the pool BEFORE the placement is
validated (src/game.rs line 103 precedes line 104), so a rejected
placement mutates the state: from `gDraft` (pool of 5) the action
`idx 0 → (0,0)` is rejected with "Die color does not match slot", yet the
resulting state `gLeak` has a 4-die pool and differs from `gDraft`.  This
also breaks the engine's own `assert_eq!(draft_pool.len(), 1)` in
`finish_round` for any round containing a rejected draft. -/
theorem c2_error_mutates_state :
    take_turn [] gDraft { idx := 0, coords := some (0, 0) }
        = .err "Die color does not match slot" gLeak ∧
    gDraft.draft_pool.length = 5 ∧
    gLeak.draft_pool.length = 4 ∧
    gLeak ≠ gDraft := by
  exact ⟨by decide, by decide, by decide, by decide⟩

/-! ## Claim C3 — the score has no token term -/

/-- C3 counterexample: `calculate_score` does not add the player's
remaining tokens.  For a player with 5 tokens and an empty board (and no
objectives) the code scores −20, while the claim's formula
(`specScore`) gives −15. -/
theorem c3_counterexample :
    tokensPlayer.calculate_score [] = -20 ∧
    specScore tokensPlayer [] = -15 ∧
    tokensPlayer.calculate_score [] ≠ specScore tokensPlayer [] := by
  exact ⟨by decide, by decide, by decide⟩

/-- C3 (amended): the player's score is the sum over the 20 board cells of
(+1 for a die of the secret color, −1 for an empty cell, 0 otherwise) —
equivalently, the number of secret-colored dice minus the number of empty
cells — plus the objective scores.  The player's remaining tokens are NOT
added (contrary to the claim's `+ tokens_remaining` term). -/
theorem c3_score_formula (p : Player) (objectives : List Objective) :
    p.calculate_score objectives
      = (p.board.flatten.countP (fun c => c.die.any fun d => decide (d.color = p.secret)) : Int)
        - (p.board.flatten.countP (fun c => c.die.isNone) : Int)
        + (objectives.map fun o => o.score p.board).sum := by
  unfold Player.calculate_score
  rw [cellSum_counts]

/-! ## Claim C4 — the adjacency rule is not enforced -/

/-- C4 (code bug): `place_die` carries `// TODO: check adjacency rules
here` and performs NO orthogonal-adjacency check.  With a Red die already
at (0,1), placing a Red die at the orthogonally adjacent cell (0,0)
SUCCEEDS, where the claim (and the spec's zero-tolerance rule) requires a
rejection. -/
theorem c4_no_adjacency_check :
    ((c4Board.getD 0 []).getD 1 default).die = some ⟨Color.Red, 5⟩ ∧
    c4Player.place_die (0, 0) ⟨Color.Red, 3⟩
      = .ok { c4Player with
              board := setCell c4Board 0 0 ⟨Slot.Any, some ⟨Color.Red, 3⟩⟩ } := by
  exact ⟨by decide, by rfl⟩

/-! ## Claim C5 — a draft with no destination is rejected, not a discard -/

/-- C5 counterexample: in the `FirstDraft` phase (state `gDraft`, a valid
pool index 0), the `DraftDie` action with no destination coordinates —
exactly `TurnAction::pass()` — does NOT succeed: it returns the error
"Missing destination coordinates" and leaves the state unchanged (the die
stays in the pool and the turn does not advance). -/
theorem c5_counterexample :
    (take_turn [] gDraft selAct).isOk = false ∧
    take_turn [] gDraft selAct = .err "Missing destination coordinates" gDraft := by
  exact ⟨by decide, by decide⟩

/-- C5 (amended): in the `FirstDraft` and `SecondDraft` phases, an action
carrying no destination coordinates always fails with "Missing destination
coordinates" and leaves the state exactly unchanged; there is no
"draft-but-discard" pass-through. -/
theorem c5_draft_requires_coords {rolls : List Nat} {s : GameState} {a : TurnAction}
    (hphase : s.phase = TurnPhase.FirstDraft ∨ s.phase = TurnPhase.SecondDraft)
    (hc : a.coords = none) :
    take_turn rolls s a = .err "Missing destination coordinates" s := by
  unfold take_turn
  rcases hphase with hp | hp <;> rw [hp]
  · unfold firstDraftPhase
    rw [hc]
  · unfold secondDraftPhase
    rw [hc]

/-- Witness for C5 (amended), at the concrete drafting state `gDraft`. -/
theorem c5_draft_requires_coords_witness :
    take_turn [] gDraft selAct = .err "Missing destination coordinates" gDraft :=
  c5_draft_requires_coords (Or.inl (by decide)) rfl

/-! ## Claim C6 — Row/Column-Numbers test distinctness, not "all six" -/

/-- C6 counterexample: a full row of five dice with the distinct faces
1–5 scores under `RowNumbers` even though the six faces 1–6 cannot all
appear in a 5-cell row: the code gives 1, the claim's "all six face values
appear exactly once" reading (`claimRowSix`) gives 0. -/
theorem c6_counterexample :
    Objective.score (.RowNumbers 1) c6Board = 1 ∧
    1 * ((c6Board.filter fun row => claimRowSix row).length : Int) = 0 ∧
    Objective.score (.RowNumbers 1) c6Board
      ≠ 1 * ((c6Board.filter fun row => claimRowSix row).length : Int) := by
  exact ⟨by decide, by decide, by decide⟩

/-- C6 (amended): for every board whose dice show faces in [1,6], the
`RowNumbers` (resp. `ColumnNumbers`) objective awards its multiplier once
per row (resp. column) in which EVERY cell is occupied and no two dice
share a face; any empty cell or duplicate face disqualifies the line.
(All six faces can never appear in a 5-cell row or 4-cell column, so the
claim's "all six face values appear exactly once" reading is wrong.) -/
theorem c6_row_column_numbers {m : Int} {b : Board}
    (hfaces : ∀ row ∈ b, ∀ c ∈ row, ∀ d, c.die = some d → 1 ≤ d.face ∧ d.face ≤ 6) :
    Objective.score (.RowNumbers m) b
      = m * (b.filter fun row =>
          decide ((∀ c ∈ row, c.die.isSome = true) ∧ (facesOf row).Nodup)).length ∧
    Objective.score (.ColumnNumbers m) b
      = m * ((List.range BOARD_COLS).filter fun i =>
          decide ((∀ c ∈ column b i, c.die.isSome = true) ∧
            (facesOf (column b i)).Nodup)).length := by
  constructor
  · have hfil : b.filter (fun row => distinct_numbers row)
        = b.filter fun row =>
            decide ((∀ c ∈ row, c.die.isSome = true) ∧ (facesOf row).Nodup) :=
      List.filter_congr fun row hrow =>
        distinct_numbers_eq_decide row fun c hc d hd => hfaces row hrow c hc d hd
    simp only [Objective.score]
    rw [hfil]
  · have hfil : (List.range BOARD_COLS).filter (fun i => distinct_numbers (column b i))
        = (List.range BOARD_COLS).filter fun i =>
            decide ((∀ c ∈ column b i, c.die.isSome = true) ∧
              (facesOf (column b i)).Nodup) :=
      List.filter_congr fun i _ =>
        distinct_numbers_eq_decide (column b i) (column_faces_range hfaces i)
    simp only [Objective.score]
    rw [hfil]

/-- Witness for C6 (amended), at the concrete board `c6Board` with the
catalog multiplier 5: the full distinct-faced top row scores, the three
empty rows and all columns do not. -/
theorem c6_row_column_numbers_witness :
    Objective.score (.RowNumbers 5) c6Board
      = 5 * (c6Board.filter fun row =>
          decide ((∀ c ∈ row, c.die.isSome = true) ∧ (facesOf row).Nodup)).length ∧
    Objective.score (.ColumnNumbers 5) c6Board
      = 5 * ((List.range BOARD_COLS).filter fun i =>
          decide ((∀ c ∈ column c6Board i, c.die.isSome = true) ∧
            (facesOf (column c6Board i)).Nodup)).length :=
  c6_row_column_numbers (by decide)

/-! ## Claim C7 — template selection transitions into the first draft -/

/-- C7: starting from an `init(n)` state, after exactly `n` successful
turns taken in the `SelectTemplate` phase (one per player, the pointer
having wrapped back to the start player), the phase is `FirstDraft` and
the draft pool holds exactly `2 * n + 1` dice drawn from the bag; in
particular 5 dice for `n = 2`.  (For `n ≥ 3` no such run exists — `init`
builds two players, see `InitLike` — so the statement is vacuous there;
`n = 2` is the inhabited case, see the witness.) -/
theorem c7_selects_draw_first_pool {n : Nat} {s0 sF : GameState}
    (hinit : InitLike n s0) (hsteps : SelSteps n s0 sF) :
    sF.phase = TurnPhase.FirstDraft ∧
    sF.draft_pool.length = 2 * n + 1 ∧
    sF.curr_player_idx = sF.start_player_idx ∧
    sF.dice_bag.length = DICE_PER_COLOR * 5 - (2 * n + 1) := by
  have hbag90 : s0.dice_bag.length = DICE_PER_COLOR * 5 := by
    rw [← hinit.bag_perm.length_eq]
    decide
  have hn : n = 2 ∨ n = 3 ∨ n = 4 := by
    have := hinit.hn
    omega
  rcases hn with rfl | rfl | rfl
  · rcases hsteps with _ | ⟨_, _, _, r1, a1, f1, s1, hph0, h1, hrest⟩
    rcases hrest with _ | ⟨_, _, _, r2, a2, f2, s2, hph1, h2, hrest2⟩
    rcases hrest2 with _ | _
    have hts := two_select_steps hinit.players_len hinit.curr_eq hinit.phase_eq h1 h2
    exact ⟨hts.1, by rw [hts.2.1], hts.2.2.1, by rw [hts.2.2.2, hbag90]⟩
  · rcases hsteps with _ | ⟨_, _, _, r1, a1, f1, s1, hph0, h1, hrest⟩
    rcases hrest with _ | ⟨_, _, _, r2, a2, f2, s2, hph1, h2, hrest2⟩
    rcases hrest2 with _ | ⟨_, _, _, r3, a3, f3, s3, hph2, h3, _⟩
    have hts := two_select_steps hinit.players_len hinit.curr_eq hinit.phase_eq h1 h2
    rw [hts.1] at hph2
    exact TurnPhase.noConfusion hph2
  · rcases hsteps with _ | ⟨_, _, _, r1, a1, f1, s1, hph0, h1, hrest⟩
    rcases hrest with _ | ⟨_, _, _, r2, a2, f2, s2, hph1, h2, hrest2⟩
    rcases hrest2 with _ | ⟨_, _, _, r3, a3, f3, s3, hph2, h3, _⟩
    have hts := two_select_steps hinit.players_len hinit.curr_eq hinit.phase_eq h1 h2
    rw [hts.1] at hph2
    exact TurnPhase.noConfusion hph2

/-- Witness for C7: the concrete two-player run `gInit → gSel1 → gDraft`
(both players select template 0). -/
theorem c7_selects_draw_first_pool_witness :
    gDraft.phase = TurnPhase.FirstDraft ∧
    gDraft.draft_pool.length = 2 * 2 + 1 ∧
    gDraft.curr_player_idx = gDraft.start_player_idx ∧
    gDraft.dice_bag.length = DICE_PER_COLOR * 5 - (2 * 2 + 1) :=
  c7_selects_draw_first_pool gInit_initLike
    (SelSteps.step 1 gInit gDraft [] selAct false gSel1 rfl (by decide)
      (SelSteps.step 0 gSel1 gDraft [1, 2, 3, 4, 5] selAct false gDraft
        (by decide) (by decide) (SelSteps.done gDraft)))

/-! ## Claim C8 — GameOver is terminal -/

/-- C8: once the phase is `GameOver`, every `take_turn` call returns the
"Game is over" error with the state exactly unchanged, and no sequence of
further calls ever leaves the state (or the phase) — `GameOver` is
terminal. -/
theorem c8_game_over_terminal (rolls : List Nat) (s : GameState) (a : TurnAction)
    (h : s.phase = TurnPhase.GameOver) :
    take_turn rolls s a = .err "Game is over" s ∧
    ∀ turns, runAll s turns = s := by
  have hstep : ∀ (r : List Nat) (b : TurnAction),
      take_turn r s b = .err "Game is over" s := by
    intro r b
    unfold take_turn
    rw [h]
  refine ⟨hstep rolls a, ?_⟩
  intro turns
  induction turns with
  | nil => rfl
  | cons t rest ih =>
      show runAll ((take_turn t.1 s t.2).state) rest = s
      rw [hstep t.1 t.2]
      exact ih

/-- Witness for C8, at the concrete finished state `gOver`. -/
theorem c8_game_over_terminal_witness :
    take_turn [] gOver selAct = .err "Game is over" gOver ∧
    ∀ turns, runAll gOver turns = gOver :=
  c8_game_over_terminal [] gOver selAct rfl

/-! ## Claim C9 — increment/decrement saturate at the u8 bounds, not 6/1 -/

/-- C9 counterexample: `Dice::increment` uses `saturating_add(1)` on a
`u8`, which saturates at 255, not 6 — a die showing 6 goes to 7; likewise
`saturating_sub(1)` truncates at 0, not 1 — a die showing 1 goes to 0. -/
theorem c9_counterexample :
    Dice.increment ⟨Color.Red, 6⟩ = ⟨Color.Red, 7⟩ ∧
    Dice.decrement ⟨Color.Red, 1⟩ = ⟨Color.Red, 0⟩ ∧
    (Dice.increment ⟨Color.Red, 6⟩).face ≠ 6 ∧
    (Dice.decrement ⟨Color.Red, 1⟩).face ≠ 1 := by
  exact ⟨by decide, by decide, by decide, by decide⟩

/-- C9 (amended): for a die with face in [1,6], `increment` always adds 1
(no saturation happens below the u8 bound 255, so 6 becomes 7) and
`decrement` always subtracts 1 (truncating only at 0, so 1 becomes 0);
the color is unchanged.  The face stays in [1,6] only when starting from
[1,5] (increment) or [2,6] (decrement). -/
theorem c9_bump_saturation {d : Dice} (h1 : 1 ≤ d.face) (h6 : d.face ≤ 6) :
    d.increment = ⟨d.color, d.face + 1⟩ ∧
    d.decrement = ⟨d.color, d.face - 1⟩ ∧
    (d.face ≤ 5 → 2 ≤ d.increment.face ∧ d.increment.face ≤ 6) ∧
    (2 ≤ d.face → 1 ≤ d.decrement.face ∧ d.decrement.face ≤ 5) := by
  unfold Dice.increment Dice.decrement
  have hmin : min (d.face + 1) 255 = d.face + 1 := by omega
  rw [hmin]
  refine ⟨rfl, rfl, ?_, ?_⟩
  · intro h5
    exact ⟨by show 2 ≤ d.face + 1; omega, by show d.face + 1 ≤ 6; omega⟩
  · intro h2
    exact ⟨by show 1 ≤ d.face - 1; omega, by show d.face - 1 ≤ 5; omega⟩

/-- Witness for C9 (amended), at a Green die showing 3. -/
theorem c9_bump_saturation_witness :
    Dice.increment ⟨Color.Green, 3⟩ = ⟨Color.Green, 4⟩ ∧
    Dice.decrement ⟨Color.Green, 3⟩ = ⟨Color.Green, 2⟩ ∧
    ((3 : Nat) ≤ 5 → 2 ≤ (Dice.increment ⟨Color.Green, 3⟩).face ∧
      (Dice.increment ⟨Color.Green, 3⟩).face ≤ 6) ∧
    (2 ≤ (3 : Nat) → 1 ≤ (Dice.decrement ⟨Color.Green, 3⟩).face ∧
      (Dice.decrement ⟨Color.Green, 3⟩).face ≤ 5) :=
  c9_bump_saturation (by decide) (by decide)

/-! ## Claim C10 — the round-end assertion fires on a normal playthrough -/

/-- C10 (code bug): the `SecondDraft` arm moves the pointer backwards and
finishes the round as soon as the pointer reaches the start player, so
the start player never takes a second draft: each round sees only
`2n − 1` successful drafts and the pool still holds 2 dice when
`finish_round` runs.  Its `assert_eq!(draft_pool.len(), 1)` therefore
fails at the end of EVERY round: from `gInit`, two template selections
followed by three legal drafts (the first four calls all succeed) make the
fifth call abort with the assertion, the pool holding 2 dice — the claim's
"the draft pool contains exactly one die; the assertion never fails" is
violated on this fully successful run. -/
theorem c10_round_end_assertion_fails :
    InitLike 2 gInit ∧
    (runOk gInit (round1Trace.take 4)).isOk = true ∧
    runOk gInit round1Trace
      = .panicked "assertion failed: draft_pool.len() == 1"
          (runOk gInit round1Trace).state ∧
    (runOk gInit round1Trace).state.draft_pool.length = 2 := by
  exact ⟨gInit_initLike, by decide, by decide, by decide⟩

end Stained
